import Mathlib

/-!
Shallow embedding of the Statto → Model bridge (`statto_bridge.py`).

The five input CSV tables are modelled as lists of records; every pandas
DataFrame operation of the source is translated into an explicit list
operation:

* `groupby(...).agg(...)` becomes: the list of (deduplicated) group keys,
  and for each key the aggregate computed over the rows of that group.
  pandas sorts the group keys; none of the properties below depend on row
  order, so keys are kept in first-occurrence order here.
* a left merge against a table whose key is unique (every aggregate table
  produced by a `groupby` has unique keys) becomes an `Option`-valued
  lookup; `fillna(0)` becomes the `none → 0` branch.
* a left merge against a table with possibly repeated keys (the point
  context, when the points table repeats a point number) pairs each left
  row with every matching right row, exactly as pandas does.
* `astype(int)` applied to a column that an unmatched left-join filled
  with NaN raises in pandas; the row assembler is therefore `Option`-valued
  and returns `none` when a rostered point has no row in the points table.
* yardage (`Forward distance (m)`) is modelled with exact rationals; the
  claims below only ever inspect yardage values produced by empty sums and
  zero fills, where binary floating point is exact as well.
-/

namespace Statto

/-- Zero-or-one integer image of a Bool, as numpy's `.astype(int)` on a mask. -/
def b2i (b : Bool) : Int := if b then 1 else 0

/-- One row of the "Player Stats" table: the player's name and the raw
"Points played" field, a comma-separated textual list of point numbers. -/
structure PlayerStatsRecord where
  player : String
  points_played : String
deriving DecidableEq

/-- One (Player, Point) roster membership row. -/
structure RosterEntry where
  player : String
  point : Int
deriving DecidableEq

/-- Python `str.split(",")` on the character list of the field: cut at
every comma, keeping empty pieces (so the empty string yields one empty
token, as in Python). -/
def splitOnComma (l : List Char) : List (List Char) :=
  match l with
  | [] => [[]]
  | c :: rest =>
    match splitOnComma rest with
    | [] => [[]]
    | t :: ts => if c = Char.ofNat 44 then [] :: t :: ts else (c :: t) :: ts

/-- Python `str.strip()`: drop leading and trailing whitespace. -/
def trimChars (l : List Char) : List Char :=
  ((l.dropWhile Char.isWhitespace).reverse.dropWhile Char.isWhitespace).reverse

/-- Python `str.isdigit` on ASCII content: nonempty and all characters
decimal digits. -/
def isDigitToken (l : List Char) : Bool :=
  !l.isEmpty && l.all Char.isDigit

/-- Python `int()` on a decimal digit token — also the base-10 value of
any digit string, used below to reason about the decimal formatter. -/
def digitsToNat (l : List Char) : Nat :=
  l.foldl (fun acc c => 10 * acc + (c.toNat - 48)) 0

/-- Source `_expand_roster_from_player_stats`: split each "Points played" field on
commas, strip whitespace, keep the digit tokens, and emit one
(Player, Point) row per kept token.  (The Python guard skipping an empty
raw string is subsumed: an empty string yields no digit token.) -/
def expand_roster_from_player_stats (df_player : List PlayerStatsRecord) :
    List RosterEntry :=
  df_player.flatMap fun row =>
    ((splitOnComma row.points_played.data).map trimChars).filterMap fun token =>
      if isDigitToken token then
        some { player := row.player, point := (digitsToNat token : Int) }
      else none

/-- One row of the "Passes" table. -/
structure PassEvent where
  point : Int
  thrower : String
  receiver : String
  turnover : Int
  assist : Int
  secondary_assist : Int
  huck : Int
  swing : Int
  dump : Int
  forward_distance_m : Rat
deriving DecidableEq

/-- One row of the pass aggregator's output: throwing-side and
catching-side statistics for one (point, player) key. -/
structure ActionRow where
  point : Int
  player : String
  throws : Nat
  completions : Nat
  turnovers : Nat
  assists : Int
  secondary_assists : Int
  hucks : Int
  swings : Int
  dumps : Int
  throw_yards : Rat
  catches : Nat
  received_yards : Rat
  goals : Nat
deriving DecidableEq

/-- The rows grouped under (Point, Thrower) = (k, p). -/
def throwGroup (l : List PassEvent) (k : Int) (p : String) : List PassEvent :=
  l.filter fun e => decide (e.point = k ∧ e.thrower = p)

/-- Source `df_passes[df_passes["Turnover?"] == 0]`: the completed passes. -/
def completedPasses (l : List PassEvent) : List PassEvent :=
  l.filter fun e => decide (e.turnover = 0)

/-- The completed rows grouped under (Point, Receiver) = (k, p). -/
def catchGroup (l : List PassEvent) (k : Int) (p : String) : List PassEvent :=
  (completedPasses l).filter fun e => decide (e.point = k ∧ e.receiver = p)

/-- Keys of the throwing-side `groupby(["Point","Thrower"])`. -/
def throwKeys (l : List PassEvent) : List (Int × String) :=
  (l.map fun e => (e.point, e.thrower)).dedup

/-- Keys of the catching-side `groupby(["Point","Receiver"])` over the
completed passes. -/
def catchKeys (l : List PassEvent) : List (Int × String) :=
  ((completedPasses l).map fun e => (e.point, e.receiver)).dedup

/-- Key set of the outer merge of the two sides on (Point, Player). -/
def actionKeys (l : List PassEvent) : List (Int × String) :=
  (throwKeys l ++ catchKeys l).dedup

/-- The merged aggregate row for key (k, p): the throwing-side aggregates
over `throwGroup` and the catching-side aggregates over `catchGroup`; a
side with no rows contributes the `fillna(0)` zeros. -/
def mkActionRow (l : List PassEvent) (k : Int) (p : String) : ActionRow :=
  let tg := throwGroup l k p
  let cg := catchGroup l k p
  { point := k
    player := p
    throws := tg.length
    completions := (tg.filter fun e => decide (e.turnover = 0)).length
    turnovers := (tg.filter fun e => decide (e.turnover = 1)).length
    assists := (tg.map PassEvent.assist).sum
    secondary_assists := (tg.map PassEvent.secondary_assist).sum
    hucks := (tg.map PassEvent.huck).sum
    swings := (tg.map PassEvent.swing).sum
    dumps := (tg.map PassEvent.dump).sum
    throw_yards := (tg.map PassEvent.forward_distance_m).sum
    catches := cg.length
    received_yards := (cg.map PassEvent.forward_distance_m).sum
    goals := (cg.filter fun e => decide (e.assist = 1)).length }

/-- Source `_aggregate_passes`: one merged row per key of the outer merge. -/
def aggregate_passes (l : List PassEvent) : List ActionRow :=
  (actionKeys l).map fun kp => mkActionRow l kp.1 kp.2

/-- One row of the "Defensive Blocks" table. -/
structure BlockEvent where
  point : Int
  player : String
deriving DecidableEq

/-- One row of the block aggregator's output. -/
structure BlockRow where
  point : Int
  player : String
  blocks : Nat
deriving DecidableEq

/-- The block-count row of one (Point, Player) group. -/
def mkBlockRow (l : List BlockEvent) (k : Int) (p : String) : BlockRow :=
  { point := k
    player := p
    blocks := (l.filter fun e => decide (e.point = k ∧ e.player = p)).length }

/-- Source `_aggregate_blocks`: `groupby(["Point","Player"]).size()`.  (The
source's empty-input early return yields the same empty list.) -/
def aggregate_blocks (l : List BlockEvent) : List BlockRow :=
  ((l.map fun e => (e.point, e.player)).dedup).map fun kp => mkBlockRow l kp.1 kp.2

/-- One row of the "Points" table (source column names in comments). -/
structure PointRecord where
  point : Int
  started_on_offense : Int
  scored : Int
  our_score_at_pull : Int
  opp_score_at_pull : Int
  possessions : Int
  passes : Int
  turnovers : Int
  defensive_blocks : Int
deriving DecidableEq

/-- One row of the "Possessions" table. -/
structure PossessionRecord where
  point : Int
  possession : Int
  scored : Int
deriving DecidableEq

/-- One row of the point context table produced by
`_build_point_context_with_possessions`. -/
structure CtxRow where
  point : Int
  started_on_offense : Int
  scored : Int
  our_score_start : Int
  opp_score_start : Int
  point_possessions_total : Int
  point_passes_total : Int
  point_turnovers_total : Int
  point_blocks_total : Int
  team_line : Option String
  point_result : Int
  num_possessions : Nat
  first_possession_scored : Int
  any_possession_scored : Int
  clean_hold : Int
  hold : Int
  broken : Int
  break_scored : Int
  break_chance : Int
deriving DecidableEq

/-- Source `sort_values(["Point","Possession"])`: ascending lexicographic order. -/
def possLE (a b : PossessionRecord) : Bool :=
  decide (a.point < b.point ∨ (a.point = b.point ∧ a.possession ≤ b.possession))

/-- The possessions table sorted ascending by (Point, Possession). -/
def sortedPoss (l : List PossessionRecord) : List PossessionRecord :=
  l.mergeSort possLE

/-- Column `num_possessions`: count of distinct Possession values of the point, 0
when the point has no possession rows (the later `fillna(0)`). -/
def num_possessions_for (poss : List PossessionRecord) (k : Int) : Nat :=
  ((poss.filter fun r => decide (r.point = k)).map PossessionRecord.possession).dedup.length

/-- Column `first_possession_scored`: Scored? of the first row of the sorted
table belonging to the point, 0 when the point has no possession rows. -/
def first_possession_scored_for (poss : List PossessionRecord) (k : Int) : Int :=
  match (sortedPoss poss).filter (fun r => decide (r.point = k)) with
  | [] => 0
  | r :: _ => r.scored

/-- Column `any_possession_scored`: max of Scored? over the point's rows, 0 when
the point has no possession rows. -/
def any_possession_scored_for (poss : List PossessionRecord) (k : Int) : Int :=
  match (poss.filter fun r => decide (r.point = k)).map PossessionRecord.scored with
  | [] => 0
  | s :: rest => rest.foldl max s

/-- Source `map({1:"O", 0:"D"})`: unmapped values become NaN (`none`). -/
def team_line_of (soff : Int) : Option String :=
  if soff = 1 then some "O" else if soff = 0 then some "D" else none

/-- One context row from one points-table row: the renamed point fields,
the possession aggregates looked up by point (`fillna(0)` when absent),
and the five derived tags. -/
def mkCtxRow (poss : List PossessionRecord) (pr : PointRecord) : CtxRow :=
  let soff := decide (pr.started_on_offense = 1)
  let sc := decide (pr.scored = 1)
  let num_pos := num_possessions_for poss pr.point
  { point := pr.point
    started_on_offense := pr.started_on_offense
    scored := pr.scored
    our_score_start := pr.our_score_at_pull
    opp_score_start := pr.opp_score_at_pull
    point_possessions_total := pr.possessions
    point_passes_total := pr.passes
    point_turnovers_total := pr.turnovers
    point_blocks_total := pr.defensive_blocks
    team_line := team_line_of pr.started_on_offense
    point_result := pr.scored
    num_possessions := num_pos
    first_possession_scored := first_possession_scored_for poss pr.point
    any_possession_scored := any_possession_scored_for poss pr.point
    clean_hold := b2i (soff && sc && decide (num_pos = 1))
    hold := b2i (soff && sc)
    broken := b2i (soff && !sc)
    break_scored := b2i (!soff && sc)
    break_chance := b2i (!soff && decide (0 < num_pos)) }

/-- Source `_build_point_context_with_possessions`: the three possession
aggregates have unique Point keys, so the three left merges keep exactly
one context row per points-table row. -/
def build_point_context (points : List PointRecord)
    (poss : List PossessionRecord) : List CtxRow :=
  points.map (mkCtxRow poss)

/-- Base-10 digits, most significant first, with explicit fuel so that
the recursion is structural (the digit count of `n` never exceeds `n`,
so any fuel above `n` is enough). -/
def decDigitsAux (fuel : Nat) (n : Nat) : List Char :=
  match fuel with
  | 0 => []
  | f + 1 =>
    if n < 10 then [Nat.digitChar n]
    else decDigitsAux f (n / 10) ++ [Nat.digitChar (n % 10)]

/-- Base-10 digits of a natural number, most significant first; the
decimal core of Python's `d` format. -/
def decDigits (n : Nat) : List Char := decDigitsAux (n + 1) n

/-- Decimal rendering of a Python int, as a character list. -/
def intChars (n : Int) : List Char :=
  if n < 0 then Char.ofNat 45 :: decDigits n.natAbs else decDigits n.toNat

/-- Python `f-string` `02d` formatting: minimum width 2, zero padded.
Only a nonnegative single-digit value is shorter than two characters, so
only that case pads. -/
def fmt02dChars (n : Int) : List Char :=
  if 0 ≤ n ∧ n < 10 then Char.ofNat 48 :: decDigits n.toNat else intChars n

/-- The `point_uid` key: `game_id` followed by "_P" followed by the point
number in `02d` format. -/
def point_uid (game_id : String) (k : Int) : String :=
  game_id ++ "_P" ++ String.mk (fmt02dChars k)

/-- One row of the final per-player-per-point fact table. -/
structure OutputRow where
  game_id : String
  point_uid : String
  team_line : Option String
  player : String
  touches : Nat
  throws : Nat
  completions : Nat
  assists : Int
  secondary_assists : Int
  goals : Nat
  turnovers : Nat
  blocks : Nat
  pulls : Nat
  yards_gain_m : Rat
  score_diff_start : Int
  point_result : Int
  num_possessions : Nat
  clean_hold : Int
  hold : Int
  broken : Int
  break_scored : Int
  break_chance : Int
  hucks : Int
  swings : Int
  dumps : Int
deriving DecidableEq

/-- One row of the point-level summary table: a context row plus the game
id and the point uid. -/
structure PtSumRow where
  row : CtxRow
  game_id : String
  point_uid : String
deriving DecidableEq

/-- Left-join lookup of the pass aggregates on (Point, Player): unique
keys, so at most one match. -/
def lookupAction (rows : List ActionRow) (k : Int) (p : String) : Option ActionRow :=
  rows.find? fun r => decide (r.point = k ∧ r.player = p)

/-- Left-join lookup of the block aggregates on (Point, Player). -/
def lookupBlocks (rows : List BlockRow) (k : Int) (p : String) : Option BlockRow :=
  rows.find? fun r => decide (r.point = k ∧ r.player = p)

/-- The aggregate row with every statistic zero: what `fillna(0)` leaves
on a roster row with no match in the pass aggregates. -/
def zeroAction (k : Int) (p : String) : ActionRow :=
  { point := k, player := p, throws := 0, completions := 0, turnovers := 0,
    assists := 0, secondary_assists := 0, hucks := 0, swings := 0, dumps := 0,
    throw_yards := 0, catches := 0, received_yards := 0, goals := 0 }

/-- The pass-aggregate columns of a roster row after the left merge and
`fillna(0)`. -/
def actionOrZero (passes : List PassEvent) (k : Int) (p : String) : ActionRow :=
  match lookupAction (aggregate_passes passes) k p with
  | some r => r
  | none => zeroAction k p

/-- The blocks column of a roster row after the left merge and the
`fillna(0).astype(int)` of the assembler. -/
def blocksOrZero (blocks : List BlockEvent) (k : Int) (p : String) : Nat :=
  match lookupBlocks (aggregate_blocks blocks) k p with
  | some r => r.blocks
  | none => 0

/-- numpy rounding of an exact value to an integer: round half to even. -/
def roundHalfEven (q : Rat) : Int :=
  let f := q.floor
  if q - f < 1 / 2 then f
  else if 1 / 2 < q - f then f + 1
  else if f % 2 = 0 then f else f + 1

/-- Source `round(2)`: round to two decimal places. -/
def round2 (q : Rat) : Rat := (roundHalfEven (q * 100) : Rat) / 100

/-- One fact-table row, assembled from a roster entry, the pass and block
aggregates for its (point, player) key, and one matching context row. -/
def mkOutputRow (game_id : String) (passes : List PassEvent)
    (blocks : List BlockEvent) (re : RosterEntry) (c : CtxRow) : OutputRow :=
  let a := actionOrZero passes re.point re.player
  { game_id := game_id
    point_uid := point_uid game_id re.point
    team_line := c.team_line
    player := re.player
    touches := a.throws + a.catches
    throws := a.throws
    completions := a.completions
    assists := a.assists
    secondary_assists := a.secondary_assists
    goals := a.goals
    turnovers := a.turnovers
    blocks := blocksOrZero blocks re.point re.player
    pulls := 0
    yards_gain_m := round2 (a.throw_yards + a.received_yards)
    score_diff_start := c.our_score_start - c.opp_score_start
    point_result := c.point_result
    num_possessions := c.num_possessions
    clean_hold := c.clean_hold
    hold := c.hold
    broken := c.broken
    break_scored := c.break_scored
    break_chance := c.break_chance
    hucks := a.hucks
    swings := a.swings
    dumps := a.dumps }

/-- The context rows a roster entry pairs with in the left merge on
Point: every context row of the entry's point. -/
def ctxMatches (ctx : List CtxRow) (re : RosterEntry) : List CtxRow :=
  ctx.filter fun c => decide (c.point = re.point)

/-- One point-level summary row. -/
def mkPtSumRow (game_id : String) (c : CtxRow) : PtSumRow :=
  { row := c, game_id := game_id, point_uid := point_uid game_id c.point }

/-- Source `build_per_player_per_point`: roster expansion, aggregation, context
construction, and the final joins.  A roster entry whose point has no
context row gets NaN context columns out of the left merge, on which the
assembler's `astype(int)` casts raise in pandas; the build is therefore
`none` exactly when some roster entry matches no context row, and
otherwise pairs each roster entry with every matching context row. -/
def build_per_player_per_point (df_player : List PlayerStatsRecord)
    (df_points : List PointRecord) (df_passes : List PassEvent)
    (df_blocks : List BlockEvent) (df_poss : List PossessionRecord)
    (game_id : String) : Option (List OutputRow × List PtSumRow) :=
  let roster := expand_roster_from_player_stats df_player
  let ctx := build_point_context df_points df_poss
  if roster.all (fun re => !(ctxMatches ctx re).isEmpty) then
    some (roster.flatMap
            (fun re => (ctxMatches ctx re).map (mkOutputRow game_id df_passes df_blocks re)),
          ctx.map (mkPtSumRow game_id))
  else none

/-- The specification's reading of the `02d` contract: exactly the tens
digit then the units digit of the point number. -/
def twoDigitChars (k : Int) : List Char :=
  [Nat.digitChar (k.toNat / 10), Nat.digitChar (k.toNat % 10)]

/-- Sample game used by the witnesses: players A, B, C all on point 3;
point 3 started on offense and was scored on a single possession; one
completed assist pass A → B; no blocks. -/
def sampleDp : List PlayerStatsRecord :=
  [⟨"A", "3"⟩, ⟨"B", "3"⟩, ⟨"C", "3"⟩]

/-- Sample points table: point 3, started on offense, scored. -/
def sampleDpt : List PointRecord := [⟨3, 1, 1, 0, 0, 1, 2, 0, 0⟩]

/-- Sample passes table: one completed assist pass A → B on point 3. -/
def sampleDpa : List PassEvent := [⟨3, "A", "B", 0, 1, 0, 0, 0, 0, 5⟩]

/-- Sample blocks table: empty. -/
def sampleDbl : List BlockEvent := []

/-- Sample possessions table: one scored possession on point 3. -/
def sampleDps : List PossessionRecord := [⟨3, 1, 1⟩]

/-- The sample game's build output. -/
def samplePair : List OutputRow × List PtSumRow :=
  (build_per_player_per_point sampleDp sampleDpt sampleDpa sampleDbl sampleDps "G").getD ([], [])

/-- The sample game's context row for point 3. -/
def sampleCtx : CtxRow := mkCtxRow sampleDps ⟨3, 1, 1, 0, 0, 1, 2, 0, 0⟩

/-- Player A's sample fact-table row. -/
def sampleRowA : OutputRow := mkOutputRow "G" sampleDpa sampleDbl ⟨"A", 3⟩ sampleCtx

/-- Player A's sample pass-aggregate row. -/
def sampleActionRow : ActionRow := mkActionRow sampleDpa 3 "A"

/-- A single point started on defense and scored (a break). -/
def breakPoints : List PointRecord := [⟨1, 0, 1, 0, 0, 1, 0, 0, 0⟩]

/-- One scored possession on that break point. -/
def breakPoss : List PossessionRecord := [⟨1, 1, 1⟩]

/-- The break point's context row when its possession row is present. -/
def breakCtx : CtxRow := mkCtxRow breakPoss ⟨1, 0, 1, 0, 0, 1, 0, 0, 0⟩

/-- A completed assist pass A → B on point 3. -/
def sampleAssistEvent : PassEvent := ⟨3, "A", "B", 0, 1, 0, 0, 0, 0, 5⟩

/-- A turnover pass on point 3 (no catching-side contribution). -/
def sampleTurnEvent : PassEvent := ⟨3, "A", "B", 1, 0, 0, 0, 0, 0, 2⟩

end Statto

attribute [local semireducible] List.mergeSort List.merge Rat.add Rat.mul Rat.sub Rat.inv

namespace Statto

theorem decDigitsAux_congr :
    ∀ (f1 n f2 : Nat), n < f1 → n < f2 → decDigitsAux f1 n = decDigitsAux f2 n := by
  intro f1
  induction f1 with
  | zero => intro n f2 h1 _; omega
  | succ f ih =>
    intro n f2 h1 h2
    cases f2 with
    | zero => omega
    | succ g =>
      by_cases h10 : n < 10
      · simp [decDigitsAux, h10]
      · have hd : n / 10 < n := Nat.div_lt_self (by omega) (by omega)
        simp only [decDigitsAux, if_neg h10]
        rw [ih (n / 10) g (by omega) (by omega)]

theorem decDigits_eq (n : Nat) :
    decDigits n = if n < 10 then [Nat.digitChar n]
      else decDigits (n / 10) ++ [Nat.digitChar (n % 10)] := by
  by_cases h10 : n < 10
  · simp [decDigits, decDigitsAux, h10]
  · have hd : n / 10 < n := Nat.div_lt_self (by omega) (by omega)
    have h2 : decDigitsAux (n + 1) n
        = decDigitsAux n (n / 10) ++ [Nat.digitChar (n % 10)] := by
      rw [decDigitsAux, if_neg h10]
    rw [if_neg h10]
    show decDigitsAux (n + 1) n
      = decDigitsAux (n / 10 + 1) (n / 10) ++ [Nat.digitChar (n % 10)]
    rw [h2, decDigitsAux_congr n (n / 10) (n / 10 + 1) (by omega) (by omega)]

theorem decDigits_ne_nil (n : Nat) : decDigits n ≠ [] := by
  rw [decDigits_eq]
  by_cases h10 : n < 10 <;> simp [h10]

theorem digitChar_toNat : ∀ d : Nat, d < 10 → (Nat.digitChar d).toNat = 48 + d := by
  decide

theorem digitsToNat_decDigits : ∀ n : Nat, digitsToNat (decDigits n) = n := by
  intro n
  induction n using Nat.strong_induction_on with
  | _ n ih =>
    rw [digitsToNat, decDigits_eq]
    by_cases h10 : n < 10
    · simp only [if_pos h10, List.foldl_cons, List.foldl_nil]
      rw [digitChar_toNat n h10]
      omega
    · have hd : n / 10 < n := Nat.div_lt_self (by omega) (by omega)
      simp only [if_neg h10, List.foldl_append, List.foldl_cons, List.foldl_nil]
      have hfront := ih (n / 10) hd
      rw [digitsToNat] at hfront
      rw [hfront, digitChar_toNat (n % 10) (by omega)]
      omega

theorem decDigits_inj {n m : Nat} (h : decDigits n = decDigits m) : n = m := by
  rw [← digitsToNat_decDigits n, ← digitsToNat_decDigits m, h]

theorem decDigits_head_digit :
    ∀ (n : Nat) (c : Char) (l : List Char), decDigits n = c :: l →
      ∃ d : Nat, d < 10 ∧ c = Nat.digitChar d := by
  intro n
  induction n using Nat.strong_induction_on with
  | _ n ih =>
    intro c l h
    rw [decDigits_eq] at h
    by_cases h10 : n < 10
    · rw [if_pos h10] at h
      exact ⟨n, h10, (List.cons_eq_cons.mp h).1.symm⟩
    · rw [if_neg h10] at h
      have hd : n / 10 < n := Nat.div_lt_self (by omega) (by omega)
      cases hfront : decDigits (n / 10) with
      | nil => exact absurd hfront (decDigits_ne_nil _)
      | cons c0 t =>
        rw [hfront] at h
        simp only [List.cons_append, List.cons.injEq] at h
        exact h.1 ▸ ih (n / 10) hd c0 t hfront

theorem decDigits_head_ne_zero :
    ∀ (n : Nat), 1 ≤ n → ∀ (c : Char) (l : List Char), decDigits n = c :: l →
      c ≠ Nat.digitChar 0 := by
  intro n
  induction n using Nat.strong_induction_on with
  | _ n ih =>
    intro h1 c l h
    rw [decDigits_eq] at h
    by_cases h10 : n < 10
    · rw [if_pos h10] at h
      have hc : c = Nat.digitChar n := (List.cons_eq_cons.mp h).1.symm
      subst hc
      have : ∀ d : Nat, d < 10 → 1 ≤ d → Nat.digitChar d ≠ Nat.digitChar 0 := by decide
      exact this n h10 h1
    · rw [if_neg h10] at h
      have hd : n / 10 < n := Nat.div_lt_self (by omega) (by omega)
      cases hfront : decDigits (n / 10) with
      | nil => exact absurd hfront (decDigits_ne_nil _)
      | cons c0 t =>
        rw [hfront] at h
        simp only [List.cons_append, List.cons.injEq] at h
        exact h.1 ▸ ih (n / 10) hd (by omega) c0 t hfront

theorem digitChar_ne_minus : ∀ d : Nat, d < 10 → Nat.digitChar d ≠ Char.ofNat 45 := by
  decide

theorem intChars_inj {n m : Int} (h : intChars n = intChars m) : n = m := by
  unfold intChars at h
  by_cases hn : n < 0 <;> by_cases hm : m < 0
  · rw [if_pos hn, if_pos hm] at h
    have := decDigits_inj (List.cons_eq_cons.mp h).2
    omega
  · rw [if_pos hn, if_neg hm] at h
    cases hdd : decDigits m.toNat with
    | nil => exact absurd hdd (decDigits_ne_nil _)
    | cons c t =>
      rw [hdd] at h
      obtain ⟨d, hd10, hcd⟩ := decDigits_head_digit m.toNat c t hdd
      have hc : Char.ofNat 45 = c := (List.cons_eq_cons.mp h).1
      exact absurd (hcd ▸ hc.symm) (digitChar_ne_minus d hd10)
  · rw [if_neg hn, if_pos hm] at h
    cases hdd : decDigits n.toNat with
    | nil => exact absurd hdd (decDigits_ne_nil _)
    | cons c t =>
      rw [hdd] at h
      obtain ⟨d, hd10, hcd⟩ := decDigits_head_digit n.toNat c t hdd
      have hc : c = Char.ofNat 45 := (List.cons_eq_cons.mp h).1
      exact absurd (hcd ▸ hc) (digitChar_ne_minus d hd10)
  · rw [if_neg hn, if_neg hm] at h
    have := decDigits_inj h
    omega

theorem pad_char_eq : Char.ofNat 48 = Nat.digitChar 0 := by decide

theorem fmt_pad_ne_unpadded {n m : Int} (_hn : 0 ≤ n ∧ n < 10)
    (hm : ¬(0 ≤ m ∧ m < 10)) :
    Char.ofNat 48 :: decDigits n.toNat ≠ intChars m := by
  intro h
  unfold intChars at h
  by_cases hm0 : m < 0
  · rw [if_pos hm0] at h
    have hc : Char.ofNat 48 = Char.ofNat 45 := (List.cons_eq_cons.mp h).1
    exact absurd hc (by decide)
  · rw [if_neg hm0] at h
    cases hdd : decDigits m.toNat with
    | nil => exact absurd hdd (decDigits_ne_nil _)
    | cons c t =>
      rw [hdd] at h
      have hc : Char.ofNat 48 = c := (List.cons_eq_cons.mp h).1
      exact decDigits_head_ne_zero m.toNat (by omega) c t hdd (pad_char_eq ▸ hc.symm)

theorem fmt02dChars_inj {n m : Int} (h : fmt02dChars n = fmt02dChars m) : n = m := by
  unfold fmt02dChars at h
  by_cases hn : 0 ≤ n ∧ n < 10 <;> by_cases hm : 0 ≤ m ∧ m < 10
  · rw [if_pos hn, if_pos hm] at h
    have := decDigits_inj (List.cons_eq_cons.mp h).2
    omega
  · rw [if_pos hn, if_neg hm] at h
    exact absurd h (fmt_pad_ne_unpadded hn hm)
  · rw [if_neg hn, if_pos hm] at h
    exact absurd h.symm (fmt_pad_ne_unpadded hm hn)
  · rw [if_neg hn, if_neg hm] at h
    exact intChars_inj h

theorem string_mk_data (l : List Char) : (String.mk l).data = l := rfl

theorem point_uid_inj {g : String} {k p : Int}
    (h : point_uid g k = point_uid g p) : k = p := by
  unfold point_uid at h
  have hd := congrArg String.data h
  simp only [String.data_append, string_mk_data, List.append_assoc] at hd
  exact fmt02dChars_inj (List.append_cancel_left (List.append_cancel_left hd))

theorem fmt02dChars_eq_twoDigitChars {k : Int} (h0 : 0 ≤ k) (h99 : k ≤ 99) :
    fmt02dChars k = twoDigitChars k := by
  unfold fmt02dChars twoDigitChars intChars
  by_cases h10 : k < 10
  · rw [if_pos ⟨h0, h10⟩, decDigits_eq]
    have hk10 : k.toNat < 10 := by omega
    rw [if_pos hk10]
    have hdiv : k.toNat / 10 = 0 := by omega
    have hmod : k.toNat % 10 = k.toNat := by omega
    rw [hdiv, hmod, pad_char_eq]
  · have hkneg : ¬k < 0 := by omega
    rw [if_neg (by omega), if_neg hkneg, decDigits_eq]
    have hk10 : ¬k.toNat < 10 := by omega
    rw [if_neg hk10, decDigits_eq]
    have hq10 : k.toNat / 10 < 10 := by omega
    rw [if_pos hq10]
    rfl

theorem mkActionRow_point (l : List PassEvent) (k : Int) (p : String) :
    (mkActionRow l k p).point = k := rfl

theorem mkActionRow_player (l : List PassEvent) (k : Int) (p : String) :
    (mkActionRow l k p).player = p := rfl

theorem mem_aggregate_passes {l : List PassEvent} {r : ActionRow}
    (h : r ∈ aggregate_passes l) : r = mkActionRow l r.point r.player := by
  simp only [aggregate_passes, List.mem_map] at h
  obtain ⟨kp, _, hr⟩ := h
  rw [← hr, mkActionRow_point, mkActionRow_player]

theorem mkActionRow_mem_of_key {l : List PassEvent} {k : Int} {p : String}
    (h : (k, p) ∈ actionKeys l) : mkActionRow l k p ∈ aggregate_passes l := by
  simp only [aggregate_passes, List.mem_map]
  exact ⟨(k, p), h, rfl⟩

/-- The left merge with the pass aggregates followed by `fillna(0)` gives
every roster row exactly the aggregates of its own (point, player) group:
the matched row when the key was grouped, all zeros (= the aggregates of
an empty group) otherwise. -/
theorem actionOrZero_eq (l : List PassEvent) (k : Int) (p : String) :
    actionOrZero l k p = mkActionRow l k p := by
  unfold actionOrZero lookupAction
  cases hf : (aggregate_passes l).find? (fun r => decide (r.point = k ∧ r.player = p)) with
  | some r =>
    have hmem := List.mem_of_find?_eq_some hf
    have hpred := List.find?_some hf
    simp only [decide_eq_true_eq] at hpred
    have hr := mem_aggregate_passes hmem
    rw [hpred.1, hpred.2] at hr
    exact hr
  | none =>
    rw [List.find?_eq_none] at hf
    have hkey : (k, p) ∉ actionKeys l := by
      intro hkp
      have hmem := mkActionRow_mem_of_key hkp
      have := hf _ hmem
      simp [mkActionRow_point, mkActionRow_player] at this
    have hthrow : throwGroup l k p = [] := by
      rw [throwGroup, List.filter_eq_nil_iff]
      intro e he hc
      simp only [decide_eq_true_eq] at hc
      refine hkey ?_
      simp only [actionKeys, List.mem_dedup, List.mem_append]
      refine Or.inl ?_
      simp only [throwKeys, List.mem_dedup, List.mem_map]
      exact ⟨e, he, by rw [hc.1, hc.2]⟩
    have hcatch : catchGroup l k p = [] := by
      rw [catchGroup, List.filter_eq_nil_iff]
      intro e he hc
      simp only [decide_eq_true_eq] at hc
      refine hkey ?_
      simp only [actionKeys, List.mem_dedup, List.mem_append]
      refine Or.inr ?_
      simp only [catchKeys, List.mem_dedup, List.mem_map]
      exact ⟨e, he, by rw [hc.1, hc.2]⟩
    show zeroAction k p = mkActionRow l k p
    rw [mkActionRow, hthrow, hcatch]
    rfl

theorem mkBlockRow_point (l : List BlockEvent) (k : Int) (p : String) :
    (mkBlockRow l k p).point = k := rfl

theorem mkBlockRow_player (l : List BlockEvent) (k : Int) (p : String) :
    (mkBlockRow l k p).player = p := rfl

theorem mem_aggregate_blocks {l : List BlockEvent} {r : BlockRow}
    (h : r ∈ aggregate_blocks l) : r = mkBlockRow l r.point r.player := by
  simp only [aggregate_blocks, List.mem_map] at h
  obtain ⟨kp, _, hr⟩ := h
  rw [← hr, mkBlockRow_point, mkBlockRow_player]

/-- The left merge with the block aggregates followed by
`fillna(0).astype(int)` gives every roster row the count of its own
(point, player) block events. -/
theorem blocksOrZero_eq (l : List BlockEvent) (k : Int) (p : String) :
    blocksOrZero l k p
      = (l.filter fun e => decide (e.point = k ∧ e.player = p)).length := by
  unfold blocksOrZero lookupBlocks
  cases hf : (aggregate_blocks l).find? (fun r => decide (r.point = k ∧ r.player = p)) with
  | some r =>
    have hmem := List.mem_of_find?_eq_some hf
    have hpred := List.find?_some hf
    simp only [decide_eq_true_eq] at hpred
    have hr := mem_aggregate_blocks hmem
    rw [hpred.1, hpred.2] at hr
    show r.blocks = _
    rw [hr]
    rfl
  | none =>
    rw [List.find?_eq_none] at hf
    show 0 = (l.filter fun e => decide (e.point = k ∧ e.player = p)).length
    have hnil : l.filter (fun e => decide (e.point = k ∧ e.player = p)) = [] := by
      rw [List.filter_eq_nil_iff]
      intro e he hc
      simp only [decide_eq_true_eq] at hc
      have hkp : (k, p) ∈ (l.map fun e => (e.point, e.player)).dedup := by
        simp only [List.mem_dedup, List.mem_map]
        exact ⟨e, he, by rw [hc.1, hc.2]⟩
      have hmem : mkBlockRow l k p ∈ aggregate_blocks l := by
        simp only [aggregate_blocks, List.mem_map]
        exact ⟨(k, p), hkp, rfl⟩
      have := hf _ hmem
      simp [mkBlockRow_point, mkBlockRow_player] at this
    rw [hnil]
    rfl

theorem build_rows_eq {dp : List PlayerStatsRecord} {dpt : List PointRecord}
    {dpa : List PassEvent} {dbl : List BlockEvent} {dps : List PossessionRecord}
    {gid : String} {out : List OutputRow × List PtSumRow}
    (hb : build_per_player_per_point dp dpt dpa dbl dps gid = some out) :
    out.1 = (expand_roster_from_player_stats dp).flatMap
      (fun re => (ctxMatches (build_point_context dpt dps) re).map
        (mkOutputRow gid dpa dbl re)) := by
  simp only [build_per_player_per_point] at hb
  split at hb
  · cases hb
    rfl
  · exact Option.noConfusion hb

theorem build_ptsum_eq {dp : List PlayerStatsRecord} {dpt : List PointRecord}
    {dpa : List PassEvent} {dbl : List BlockEvent} {dps : List PossessionRecord}
    {gid : String} {out : List OutputRow × List PtSumRow}
    (hb : build_per_player_per_point dp dpt dpa dbl dps gid = some out) :
    out.2 = (build_point_context dpt dps).map (mkPtSumRow gid) := by
  simp only [build_per_player_per_point] at hb
  split at hb
  · cases hb
    rfl
  · exact Option.noConfusion hb

theorem build_success_matches {dp : List PlayerStatsRecord} {dpt : List PointRecord}
    {dpa : List PassEvent} {dbl : List BlockEvent} {dps : List PossessionRecord}
    {gid : String} {out : List OutputRow × List PtSumRow}
    (hb : build_per_player_per_point dp dpt dpa dbl dps gid = some out)
    {re : RosterEntry} (hre : re ∈ expand_roster_from_player_stats dp) :
    ctxMatches (build_point_context dpt dps) re ≠ [] := by
  simp only [build_per_player_per_point] at hb
  split at hb
  case isTrue h =>
    rw [List.all_eq_true] at h
    have hne := h re hre
    intro hnil
    rw [hnil] at hne
    simp at hne
  case isFalse => exact Option.noConfusion hb

theorem mkOutputRow_player (gid : String) (pa : List PassEvent) (bl : List BlockEvent)
    (re : RosterEntry) (c : CtxRow) : (mkOutputRow gid pa bl re c).player = re.player := rfl

theorem mkOutputRow_uid (gid : String) (pa : List PassEvent) (bl : List BlockEvent)
    (re : RosterEntry) (c : CtxRow) :
    (mkOutputRow gid pa bl re c).point_uid = point_uid gid re.point := rfl

theorem mkCtxRow_point (poss : List PossessionRecord) (pr : PointRecord) :
    (mkCtxRow poss pr).point = pr.point := rfl

theorem b2i_eq_one {b : Bool} (h : b2i b = 1) : b = true := by
  cases b
  · simp [b2i] at h
  · rfl

theorem actionOrZero_of_none {pa : List PassEvent} {k : Int} {p : String}
    (h : lookupAction (aggregate_passes pa) k p = none) :
    actionOrZero pa k p = zeroAction k p := by
  unfold actionOrZero
  rw [h]

theorem blocksOrZero_of_none {bl : List BlockEvent} {k : Int} {p : String}
    (h : lookupBlocks (aggregate_blocks bl) k p = none) :
    blocksOrZero bl k p = 0 := by
  unfold blocksOrZero
  rw [h]

theorem mkOutputRow_throws (gid : String) (pa : List PassEvent) (bl : List BlockEvent)
    (re : RosterEntry) (c : CtxRow) :
    (mkOutputRow gid pa bl re c).throws = (throwGroup pa re.point re.player).length := by
  show (actionOrZero pa re.point re.player).throws = _
  rw [actionOrZero_eq]
  rfl

theorem mkOutputRow_completions (gid : String) (pa : List PassEvent) (bl : List BlockEvent)
    (re : RosterEntry) (c : CtxRow) :
    (mkOutputRow gid pa bl re c).completions
      = ((throwGroup pa re.point re.player).filter fun e => decide (e.turnover = 0)).length := by
  show (actionOrZero pa re.point re.player).completions = _
  rw [actionOrZero_eq]
  rfl

theorem mkOutputRow_assists (gid : String) (pa : List PassEvent) (bl : List BlockEvent)
    (re : RosterEntry) (c : CtxRow) :
    (mkOutputRow gid pa bl re c).assists
      = ((throwGroup pa re.point re.player).map PassEvent.assist).sum := by
  show (actionOrZero pa re.point re.player).assists = _
  rw [actionOrZero_eq]
  rfl

theorem mkOutputRow_goals (gid : String) (pa : List PassEvent) (bl : List BlockEvent)
    (re : RosterEntry) (c : CtxRow) :
    (mkOutputRow gid pa bl re c).goals
      = ((catchGroup pa re.point re.player).filter fun e => decide (e.assist = 1)).length := by
  show (actionOrZero pa re.point re.player).goals = _
  rw [actionOrZero_eq]
  rfl

theorem mkOutputRow_touches (gid : String) (pa : List PassEvent) (bl : List BlockEvent)
    (re : RosterEntry) (c : CtxRow) :
    (mkOutputRow gid pa bl re c).touches
      = (throwGroup pa re.point re.player).length + (catchGroup pa re.point re.player).length := by
  show (actionOrZero pa re.point re.player).throws + (actionOrZero pa re.point re.player).catches = _
  rw [actionOrZero_eq]
  rfl

theorem actionOrZero_catches (pa : List PassEvent) (k : Int) (p : String) :
    (actionOrZero pa k p).catches = (catchGroup pa k p).length := by
  rw [actionOrZero_eq]
  rfl

theorem possLE_trans : ∀ (a b c : PossessionRecord),
    possLE a b = true → possLE b c = true → possLE a c = true := by
  intro a b c hab hbc
  simp only [possLE, decide_eq_true_eq] at hab hbc ⊢
  omega

theorem possLE_total : ∀ (a b : PossessionRecord),
    (possLE a b || possLE b a) = true := by
  intro a b
  rw [Bool.or_eq_true]
  simp only [possLE, decide_eq_true_eq]
  omega

theorem turnover_length_split (tg : List PassEvent)
    (h : ∀ e ∈ tg, e.turnover = 0 ∨ e.turnover = 1) :
    tg.length = (tg.filter fun e => decide (e.turnover = 0)).length
      + (tg.filter fun e => decide (e.turnover = 1)).length := by
  induction tg with
  | nil => rfl
  | cons e t ih =>
    have he := h e (List.mem_cons_self e t)
    have ht := ih fun x hx => h x (List.mem_cons_of_mem _ hx)
    rcases he with h0 | h1
    · rw [List.filter_cons_of_pos (by simp [h0]), List.filter_cons_of_neg (by simp [h0])]
      simp only [List.length_cons]
      omega
    · rw [List.filter_cons_of_neg (by simp [h1]), List.filter_cons_of_pos (by simp [h1])]
      simp only [List.length_cons]
      omega

theorem sum_map_ite {α : Type} (l : List α) (q : α → Bool) (L : Nat) :
    (l.map fun a => if q a then L else 0).sum = l.countP q * L := by
  induction l with
  | nil => simp
  | cons a t ih =>
    rw [List.map_cons, List.sum_cons, ih, List.countP_cons]
    by_cases hq : q a
    · simp only [hq, if_pos]
      ring
    · simp [hq]

theorem pairwise_point_filter_le_one {l : List PointRecord}
    (h : (l.map PointRecord.point).Pairwise (· ≠ ·)) (p : Int) :
    (l.filter fun pr => decide (pr.point = p)).length ≤ 1 := by
  induction l with
  | nil => simp
  | cons a t ih =>
    rw [List.map_cons, List.pairwise_cons] at h
    obtain ⟨ha, ht⟩ := h
    by_cases hap : a.point = p
    · rw [List.filter_cons_of_pos (by simp [hap])]
      have hnil : t.filter (fun pr => decide (pr.point = p)) = [] := by
        rw [List.filter_eq_nil_iff]
        intro pr hpr hc
        simp only [decide_eq_true_eq] at hc
        exact ha pr.point (List.mem_map_of_mem _ hpr) (hap.trans hc.symm)
      rw [hnil]
      simp
    · rw [List.filter_cons_of_neg (by simp [hap])]
      exact ih ht

/-- C6: in every row produced by the point context builder, a clean hold
(`clean_hold = 1`) is in particular a hold (`hold = 1`): the clean-hold
mask conjoins the hold mask with the single-possession condition. -/
theorem clean_hold_implies_hold (points : List PointRecord)
    (poss : List PossessionRecord) (c : CtxRow)
    (hc : c ∈ build_point_context points poss) (h1 : c.clean_hold = 1) :
    c.hold = 1 := by
  obtain ⟨pr, hpr, hcr⟩ := List.mem_map.mp hc
  rw [← hcr] at h1 ⊢
  have h2 : (decide (pr.started_on_offense = 1) && decide (pr.scored = 1)
      && decide (num_possessions_for poss pr.point = 1)) = true := b2i_eq_one h1
  show b2i (decide (pr.started_on_offense = 1) && decide (pr.scored = 1)) = 1
  rw [Bool.and_eq_true, Bool.and_eq_true] at h2
  rw [h2.1.1, h2.1.2]
  rfl

theorem clean_hold_implies_hold_witness : sampleCtx.hold = 1 :=
  clean_hold_implies_hold sampleDpt sampleDps sampleCtx (by decide) (by decide)

/-- C2 counterexample: a point started on defense and scored, whose point
number has no row in the possessions table, gets `break_scored = 1` but
`break_chance = 0` (the zero-filled possession count fails `num_pos > 0`),
refuting the claim that `break_scored = 1` implies `break_chance = 1` even
for a point with no possession rows. -/
theorem break_scored_without_break_chance :
    ¬ (∀ c ∈ build_point_context breakPoints ([] : List PossessionRecord),
        c.break_scored = 1 → c.break_chance = 1) := by decide

/-- C2 (amended): in every row produced by the point context builder, if
`break_scored = 1` and the point has at least one row in the possessions
input, then `break_chance = 1`. -/
theorem break_scored_implies_break_chance (points : List PointRecord)
    (poss : List PossessionRecord) (c : CtxRow)
    (hc : c ∈ build_point_context points poss) (h1 : c.break_scored = 1)
    (h2 : ∃ r ∈ poss, r.point = c.point) : c.break_chance = 1 := by
  obtain ⟨pr, hpr, hcr⟩ := List.mem_map.mp hc
  rw [← hcr] at h1 h2 ⊢
  have hs : (!decide (pr.started_on_offense = 1) && decide (pr.scored = 1)) = true :=
    b2i_eq_one h1
  rw [Bool.and_eq_true] at hs
  show b2i (!decide (pr.started_on_offense = 1)
    && decide (0 < num_possessions_for poss pr.point)) = 1
  rw [hs.1]
  obtain ⟨r, hr, hrp⟩ := h2
  rw [mkCtxRow_point] at hrp
  have hpos : 0 < num_possessions_for poss pr.point := by
    rw [num_possessions_for]
    have hmem : r.possession ∈ ((poss.filter fun s => decide (s.point = pr.point)).map
        PossessionRecord.possession).dedup := by
      rw [List.mem_dedup, List.mem_map]
      exact ⟨r, List.mem_filter.mpr ⟨hr, decide_eq_true hrp⟩, rfl⟩
    exact List.length_pos.mpr (List.ne_nil_of_mem hmem)
  rw [decide_eq_true hpos]
  rfl

theorem break_scored_implies_break_chance_witness : breakCtx.break_chance = 1 :=
  break_scored_implies_break_chance breakPoints breakPoss breakCtx
    (by decide) (by decide) (by decide)

/-- C10: in every row of the pass aggregator's output, when every
Turnover? value of the input is 0 or 1, `throws` equals `completions`
plus `turnovers`: the two filters split the same grouped events. -/
theorem throws_eq_completions_add_turnovers (l : List PassEvent) (row : ActionRow)
    (hall : ∀ e ∈ l, e.turnover = 0 ∨ e.turnover = 1)
    (hrow : row ∈ aggregate_passes l) :
    row.throws = row.completions + row.turnovers := by
  have hr := mem_aggregate_passes hrow
  rw [hr]
  show (throwGroup l row.point row.player).length
    = ((throwGroup l row.point row.player).filter fun e => decide (e.turnover = 0)).length
      + ((throwGroup l row.point row.player).filter fun e => decide (e.turnover = 1)).length
  exact turnover_length_split _ fun e he => hall e (List.mem_of_mem_filter he)

theorem throws_eq_completions_add_turnovers_witness :
    sampleActionRow.throws = sampleActionRow.completions + sampleActionRow.turnovers :=
  throws_eq_completions_add_turnovers sampleDpa sampleActionRow (by decide) (by decide)

/-- C5: a point with exactly one row in the points input and no row in
the possessions input still gets exactly one context row, with
`num_possessions = 0`, `first_possession_scored = 0` and
`any_possession_scored = 0` (and the builder is total, so no error is
raised). -/
theorem missing_possessions_context (points : List PointRecord)
    (poss : List PossessionRecord) (k : Int)
    (hk : (points.filter fun pr => decide (pr.point = k)).length = 1)
    (habs : ∀ r ∈ poss, r.point ≠ k) :
    ((build_point_context points poss).filter fun c => decide (c.point = k)).length = 1
    ∧ ∀ c ∈ (build_point_context points poss).filter fun c => decide (c.point = k),
        c.num_possessions = 0 ∧ c.first_possession_scored = 0
          ∧ c.any_possession_scored = 0 := by
  have hfe : (build_point_context points poss).filter (fun c => decide (c.point = k))
      = (points.filter fun pr => decide (pr.point = k)).map (mkCtxRow poss) := by
    rw [build_point_context, List.filter_map]
    rfl
  constructor
  · rw [hfe, List.length_map, hk]
  · intro c hcmem
    rw [hfe, List.mem_map] at hcmem
    obtain ⟨pr, hprf, hcr⟩ := hcmem
    have hpk : pr.point = k :=
      of_decide_eq_true (List.mem_filter.mp hprf).2
    rw [← hcr]
    have hfil : poss.filter (fun r => decide (r.point = pr.point)) = [] := by
      rw [List.filter_eq_nil_iff]
      intro r hrmem hrd
      simp only [decide_eq_true_eq] at hrd
      exact habs r hrmem (hrd.trans hpk)
    refine ⟨?_, ?_, ?_⟩
    · show num_possessions_for poss pr.point = 0
      rw [num_possessions_for, hfil]
      rfl
    · show first_possession_scored_for poss pr.point = 0
      unfold first_possession_scored_for
      have hsf : (sortedPoss poss).filter (fun r => decide (r.point = pr.point)) = [] := by
        rw [List.filter_eq_nil_iff]
        intro r hrmem hrd
        simp only [decide_eq_true_eq] at hrd
        have hrposs : r ∈ poss := (List.mergeSort_perm poss possLE).mem_iff.mp hrmem
        exact habs r hrposs (hrd.trans hpk)
      rw [hsf]
    · show any_possession_scored_for poss pr.point = 0
      unfold any_possession_scored_for
      rw [hfil]
      rfl

theorem missing_possessions_context_witness :
    ((build_point_context sampleDpt ([] : List PossessionRecord)).filter
        fun c => decide (c.point = 3)).length = 1
    ∧ ∀ c ∈ (build_point_context sampleDpt ([] : List PossessionRecord)).filter
        fun c => decide (c.point = 3),
        c.num_possessions = 0 ∧ c.first_possession_scored = 0
          ∧ c.any_possession_scored = 0 :=
  missing_possessions_context sampleDpt [] 3 (by decide) (by decide)

/-- C7: for every context row of a point that has at least one row in the
possessions input, `first_possession_scored` is the Scored? flag of a
possession row of that point whose possession index is minimal among the
point's rows — the first row of the table sorted ascending by
(point, possession index). -/
theorem first_possession_scored_minimal (points : List PointRecord)
    (poss : List PossessionRecord) (c : CtxRow)
    (hc : c ∈ build_point_context points poss)
    (hne : ∃ r ∈ poss, r.point = c.point) :
    ∃ r ∈ poss, r.point = c.point
      ∧ (∀ s ∈ poss, s.point = c.point → r.possession ≤ s.possession)
      ∧ c.first_possession_scored = r.scored := by
  obtain ⟨pr, hpr, hcr⟩ := List.mem_map.mp hc
  rw [← hcr] at hne ⊢
  rw [mkCtxRow_point] at hne
  cases hLcase : (sortedPoss poss).filter (fun r => decide (r.point = pr.point)) with
  | nil =>
    obtain ⟨r, hr, hrp⟩ := hne
    rw [List.filter_eq_nil_iff] at hLcase
    exact absurd (decide_eq_true hrp)
      (hLcase r ((List.mergeSort_perm poss possLE).mem_iff.mpr hr))
  | cons r0 tail =>
    have hr0mem : r0 ∈ (sortedPoss poss).filter (fun r => decide (r.point = pr.point)) := by
      rw [hLcase]
      exact List.mem_cons_self r0 tail
    have hr0f := List.mem_filter.mp hr0mem
    have hr0poss : r0 ∈ poss := (List.mergeSort_perm poss possLE).mem_iff.mp hr0f.1
    have hr0pt : r0.point = pr.point := of_decide_eq_true hr0f.2
    refine ⟨r0, hr0poss, by rw [mkCtxRow_point]; exact hr0pt, ?_, ?_⟩
    · intro s hs hspt
      rw [mkCtxRow_point] at hspt
      have hsL : s ∈ (sortedPoss poss).filter (fun r => decide (r.point = pr.point)) :=
        List.mem_filter.mpr
          ⟨(List.mergeSort_perm poss possLE).mem_iff.mpr hs, decide_eq_true hspt⟩
      rw [hLcase] at hsL
      rcases List.mem_cons.mp hsL with heq | htail
      · rw [heq]
      · have hsorted : List.Pairwise (fun a b => possLE a b = true) (sortedPoss poss) :=
          List.sorted_mergeSort possLE_trans possLE_total poss
        have hLpair := (hsorted.filter (fun r => decide (r.point = pr.point)))
        rw [hLcase] at hLpair
        have hle := (List.pairwise_cons.mp hLpair).1 s htail
        simp only [possLE, decide_eq_true_eq] at hle
        rcases hle with hlt | hband
        · rw [hr0pt, hspt] at hlt
          omega
        · exact hband.2
    · show first_possession_scored_for poss pr.point = r0.scored
      unfold first_possession_scored_for
      rw [hLcase]

theorem first_possession_scored_minimal_witness :
    ∃ r ∈ sampleDps, r.point = sampleCtx.point
      ∧ (∀ s ∈ sampleDps, s.point = sampleCtx.point → r.possession ≤ s.possession)
      ∧ sampleCtx.first_possession_scored = r.scored :=
  first_possession_scored_minimal sampleDpt sampleDps sampleCtx (by decide) (by decide)

/-- C1: every row of the fact table returned by
`build_per_player_per_point` comes from a roster entry, and its `touches`
column equals its `throws` column plus the pass aggregator's catches for
that (point, player) — the number of completed receptions, 0 when there
are none. -/
theorem touches_eq_throws_add_catches (dp : List PlayerStatsRecord)
    (dpt : List PointRecord) (dpa : List PassEvent) (dbl : List BlockEvent)
    (dps : List PossessionRecord) (gid : String)
    (out : List OutputRow × List PtSumRow)
    (hb : build_per_player_per_point dp dpt dpa dbl dps gid = some out)
    (row : OutputRow) (hrow : row ∈ out.1) :
    ∃ re ∈ expand_roster_from_player_stats dp,
      row.player = re.player ∧ row.point_uid = point_uid gid re.point
        ∧ row.touches = row.throws + (catchGroup dpa re.point re.player).length := by
  rw [build_rows_eq hb, List.mem_flatMap] at hrow
  obtain ⟨re, hre, hmem⟩ := hrow
  rw [List.mem_map] at hmem
  obtain ⟨c, _, hrc⟩ := hmem
  refine ⟨re, hre, ?_, ?_, ?_⟩
  · rw [← hrc, mkOutputRow_player]
  · rw [← hrc, mkOutputRow_uid]
  · rw [← hrc, mkOutputRow_touches, mkOutputRow_throws]

theorem touches_eq_throws_add_catches_witness :
    ∃ re ∈ expand_roster_from_player_stats sampleDp,
      sampleRowA.player = re.player ∧ sampleRowA.point_uid = point_uid "G" re.point
        ∧ sampleRowA.touches
            = sampleRowA.throws + (catchGroup sampleDpa re.point re.player).length :=
  touches_eq_throws_add_catches sampleDp sampleDpt sampleDpa sampleDbl sampleDps "G"
    samplePair (by decide) sampleRowA (by decide)

/-- C4: a roster entry with no matching row in the pass aggregates and no
matching row in the block aggregates still yields a fact-table row, and
every numeric statistic of that row is zero (the zero-fill after the left
joins); no output column is null — every field is a total value of its
type by construction. -/
theorem zero_filled_row (dp : List PlayerStatsRecord) (dpt : List PointRecord)
    (dpa : List PassEvent) (dbl : List BlockEvent) (dps : List PossessionRecord)
    (gid : String) (out : List OutputRow × List PtSumRow) (re : RosterEntry)
    (hb : build_per_player_per_point dp dpt dpa dbl dps gid = some out)
    (hre : re ∈ expand_roster_from_player_stats dp)
    (hpass : lookupAction (aggregate_passes dpa) re.point re.player = none)
    (hblock : lookupBlocks (aggregate_blocks dbl) re.point re.player = none) :
    ∃ row ∈ out.1, row.player = re.player ∧ row.point_uid = point_uid gid re.point
      ∧ row.throws = 0 ∧ row.completions = 0 ∧ row.turnovers = 0
      ∧ row.assists = 0 ∧ row.secondary_assists = 0 ∧ row.goals = 0
      ∧ row.touches = 0 ∧ row.blocks = 0 ∧ row.yards_gain_m = 0
      ∧ row.hucks = 0 ∧ row.swings = 0 ∧ row.dumps = 0 := by
  have hmatches := build_success_matches hb hre
  cases hcm : ctxMatches (build_point_context dpt dps) re with
  | nil => exact absurd hcm hmatches
  | cons c cs =>
    have ha := actionOrZero_of_none hpass
    refine ⟨mkOutputRow gid dpa dbl re c, ?_, rfl, rfl,
      ?_, ?_, ?_, ?_, ?_, ?_, ?_, ?_, ?_, ?_, ?_, ?_⟩
    · rw [build_rows_eq hb, List.mem_flatMap]
      exact ⟨re, hre, by rw [hcm]; exact List.mem_map_of_mem _ (List.mem_cons_self c cs)⟩
    · show (actionOrZero dpa re.point re.player).throws = 0
      rw [ha]
      rfl
    · show (actionOrZero dpa re.point re.player).completions = 0
      rw [ha]
      rfl
    · show (actionOrZero dpa re.point re.player).turnovers = 0
      rw [ha]
      rfl
    · show (actionOrZero dpa re.point re.player).assists = 0
      rw [ha]
      rfl
    · show (actionOrZero dpa re.point re.player).secondary_assists = 0
      rw [ha]
      rfl
    · show (actionOrZero dpa re.point re.player).goals = 0
      rw [ha]
      rfl
    · show (actionOrZero dpa re.point re.player).throws
        + (actionOrZero dpa re.point re.player).catches = 0
      rw [ha]
      rfl
    · show blocksOrZero dbl re.point re.player = 0
      exact blocksOrZero_of_none hblock
    · show round2 ((actionOrZero dpa re.point re.player).throw_yards
        + (actionOrZero dpa re.point re.player).received_yards) = 0
      rw [ha]
      show round2 (0 + 0) = 0
      decide
    · show (actionOrZero dpa re.point re.player).hucks = 0
      rw [ha]
      rfl
    · show (actionOrZero dpa re.point re.player).swings = 0
      rw [ha]
      rfl
    · show (actionOrZero dpa re.point re.player).dumps = 0
      rw [ha]
      rfl

theorem zero_filled_row_witness :
    ∃ row ∈ samplePair.1,
      row.player = (⟨"C", 3⟩ : RosterEntry).player
      ∧ row.point_uid = point_uid "G" (⟨"C", 3⟩ : RosterEntry).point
      ∧ row.throws = 0 ∧ row.completions = 0 ∧ row.turnovers = 0
      ∧ row.assists = 0 ∧ row.secondary_assists = 0 ∧ row.goals = 0
      ∧ row.touches = 0 ∧ row.blocks = 0 ∧ row.yards_gain_m = 0
      ∧ row.hucks = 0 ∧ row.swings = 0 ∧ row.dumps = 0 :=
  zero_filled_row sampleDp sampleDpt sampleDpa sampleDbl sampleDps "G" samplePair
    ⟨"C", 3⟩ (by decide) (by decide) (by decide) (by decide)

/-- C8: appending one pass event on point 3 with thrower A, receiver B,
no turnover and the assist flag set raises A's output completions and
assists by one and B's output touches (via catches) and goals by one,
with A distinct from B; and appending an event whose Turnover? flag is
not 0 leaves the catching-side group (hence all catching statistics)
unchanged — catches are computed only from completed passes. -/
theorem pass_event_delta (gid : String) (l : List PassEvent) (bl : List BlockEvent)
    (e e2 : PassEvent) (c : CtxRow) (A B : String)
    (hpt : e.point = 3) (hth : e.thrower = A) (hrc : e.receiver = B)
    (hto : e.turnover = 0) (has : e.assist = 1) (hAB : A ≠ B)
    (he2 : e2.turnover ≠ 0) :
    (mkOutputRow gid (l ++ [e]) bl ⟨A, 3⟩ c).completions
        = (mkOutputRow gid l bl ⟨A, 3⟩ c).completions + 1
    ∧ (mkOutputRow gid (l ++ [e]) bl ⟨A, 3⟩ c).assists
        = (mkOutputRow gid l bl ⟨A, 3⟩ c).assists + 1
    ∧ (actionOrZero (l ++ [e]) 3 B).catches = (actionOrZero l 3 B).catches + 1
    ∧ (mkOutputRow gid (l ++ [e]) bl ⟨B, 3⟩ c).touches
        = (mkOutputRow gid l bl ⟨B, 3⟩ c).touches + 1
    ∧ (mkOutputRow gid (l ++ [e]) bl ⟨B, 3⟩ c).goals
        = (mkOutputRow gid l bl ⟨B, 3⟩ c).goals + 1
    ∧ catchGroup (l ++ [e2]) 3 B = catchGroup l 3 B := by
  have hthrowA : throwGroup (l ++ [e]) 3 A = throwGroup l 3 A ++ [e] := by
    simp [throwGroup, List.filter_append, hpt, hth]
  have hthrowB : throwGroup (l ++ [e]) 3 B = throwGroup l 3 B := by
    simp [throwGroup, List.filter_append, hpt, hth, hAB]
  have hcomp : completedPasses (l ++ [e]) = completedPasses l ++ [e] := by
    simp [completedPasses, List.filter_append, hto]
  have hcatchB : catchGroup (l ++ [e]) 3 B = catchGroup l 3 B ++ [e] := by
    simp only [catchGroup, hcomp, List.filter_append]
    simp [hpt, hrc]
  have hcatch2 : catchGroup (l ++ [e2]) 3 B = catchGroup l 3 B := by
    have hcomp2 : completedPasses (l ++ [e2]) = completedPasses l := by
      simp [completedPasses, List.filter_append, he2]
    simp only [catchGroup, hcomp2]
  refine ⟨?_, ?_, ?_, ?_, ?_, hcatch2⟩
  · rw [mkOutputRow_completions, mkOutputRow_completions]
    show ((throwGroup (l ++ [e]) 3 A).filter fun x => decide (x.turnover = 0)).length
      = ((throwGroup l 3 A).filter fun x => decide (x.turnover = 0)).length + 1
    rw [hthrowA, List.filter_append]
    simp [hto]
  · rw [mkOutputRow_assists, mkOutputRow_assists]
    show ((throwGroup (l ++ [e]) 3 A).map PassEvent.assist).sum
      = ((throwGroup l 3 A).map PassEvent.assist).sum + 1
    rw [hthrowA]
    simp [has]
  · rw [actionOrZero_catches, actionOrZero_catches, hcatchB]
    simp
  · rw [mkOutputRow_touches, mkOutputRow_touches]
    show (throwGroup (l ++ [e]) 3 B).length + (catchGroup (l ++ [e]) 3 B).length
      = (throwGroup l 3 B).length + (catchGroup l 3 B).length + 1
    rw [hthrowB, hcatchB, List.length_append]
    simp
    omega
  · rw [mkOutputRow_goals, mkOutputRow_goals]
    show ((catchGroup (l ++ [e]) 3 B).filter fun x => decide (x.assist = 1)).length
      = ((catchGroup l 3 B).filter fun x => decide (x.assist = 1)).length + 1
    rw [hcatchB, List.filter_append]
    simp [has]

theorem pass_event_delta_witness :
    (mkOutputRow "G" ([] ++ [sampleAssistEvent]) sampleDbl ⟨"A", 3⟩ sampleCtx).completions
        = (mkOutputRow "G" [] sampleDbl ⟨"A", 3⟩ sampleCtx).completions + 1
    ∧ (mkOutputRow "G" ([] ++ [sampleAssistEvent]) sampleDbl ⟨"A", 3⟩ sampleCtx).assists
        = (mkOutputRow "G" [] sampleDbl ⟨"A", 3⟩ sampleCtx).assists + 1
    ∧ (actionOrZero ([] ++ [sampleAssistEvent]) 3 "B").catches
        = (actionOrZero [] 3 "B").catches + 1
    ∧ (mkOutputRow "G" ([] ++ [sampleAssistEvent]) sampleDbl ⟨"B", 3⟩ sampleCtx).touches
        = (mkOutputRow "G" [] sampleDbl ⟨"B", 3⟩ sampleCtx).touches + 1
    ∧ (mkOutputRow "G" ([] ++ [sampleAssistEvent]) sampleDbl ⟨"B", 3⟩ sampleCtx).goals
        = (mkOutputRow "G" [] sampleDbl ⟨"B", 3⟩ sampleCtx).goals + 1
    ∧ catchGroup ([] ++ [sampleTurnEvent]) 3 "B" = catchGroup [] 3 "B" :=
  pass_event_delta "G" [] sampleDbl sampleAssistEvent sampleTurnEvent sampleCtx "A" "B"
    (by decide) (by decide) (by decide) (by decide) (by decide) (by decide) (by decide)

/-- C9: every output row's `point_uid` (fact table and point-level
summary) is exactly the game id, then "_P", then the point number as two
zero-padded decimal digits (for point numbers between 0 and 99); and the
summary's `point_uid` values are pairwise distinct when the points input
has pairwise distinct point numbers. -/
theorem point_uid_format_and_unique (dp : List PlayerStatsRecord) (dpt : List PointRecord)
    (dpa : List PassEvent) (dbl : List BlockEvent) (dps : List PossessionRecord)
    (gid : String) (out : List OutputRow × List PtSumRow)
    (hb : build_per_player_per_point dp dpt dpa dbl dps gid = some out)
    (hbound : ∀ pr ∈ dpt, 0 ≤ pr.point ∧ pr.point ≤ 99)
    (hpts : (dpt.map PointRecord.point).Pairwise (· ≠ ·)) :
    (∀ s ∈ out.2, s.point_uid = gid ++ "_P" ++ String.mk (twoDigitChars s.row.point))
    ∧ (∀ row ∈ out.1, ∃ k : Int, 0 ≤ k ∧ k ≤ 99
        ∧ row.point_uid = gid ++ "_P" ++ String.mk (twoDigitChars k))
    ∧ (out.2.map PtSumRow.point_uid).Pairwise (· ≠ ·) := by
  refine ⟨?_, ?_, ?_⟩
  · intro s hs
    rw [build_ptsum_eq hb, List.mem_map] at hs
    obtain ⟨cx, hcx, hs_eq⟩ := hs
    rw [build_point_context, List.mem_map] at hcx
    obtain ⟨pr, hpr, hcx_eq⟩ := hcx
    obtain ⟨hpr0, hpr99⟩ := hbound pr hpr
    rw [← hs_eq]
    show point_uid gid cx.point = gid ++ "_P" ++ String.mk (twoDigitChars cx.point)
    rw [← hcx_eq, mkCtxRow_point, point_uid,
      fmt02dChars_eq_twoDigitChars hpr0 hpr99]
  · intro row hrow
    rw [build_rows_eq hb, List.mem_flatMap] at hrow
    obtain ⟨re, hre, hmem⟩ := hrow
    rw [List.mem_map] at hmem
    obtain ⟨cx, hcxm, hrc⟩ := hmem
    have hf := List.mem_filter.mp hcxm
    have hcxpt : cx.point = re.point := of_decide_eq_true hf.2
    have hcxctx := hf.1
    rw [build_point_context, List.mem_map] at hcxctx
    obtain ⟨pr, hpr, hcx_eq⟩ := hcxctx
    obtain ⟨hpr0, hpr99⟩ := hbound pr hpr
    have hrept : re.point = pr.point := by rw [← hcxpt, ← hcx_eq, mkCtxRow_point]
    refine ⟨re.point, by rw [hrept]; exact hpr0, by rw [hrept]; exact hpr99, ?_⟩
    rw [← hrc, mkOutputRow_uid, point_uid,
      fmt02dChars_eq_twoDigitChars (by rw [hrept]; exact hpr0) (by rw [hrept]; exact hpr99)]
  · rw [build_ptsum_eq hb, build_point_context, List.map_map, List.map_map,
      List.pairwise_map]
    rw [List.pairwise_map] at hpts
    refine hpts.imp ?_
    intro a b hab
    show point_uid gid a.point ≠ point_uid gid b.point
    intro he
    exact hab (point_uid_inj he)

theorem point_uid_format_and_unique_witness :
    (∀ s ∈ samplePair.2, s.point_uid = "G" ++ "_P" ++ String.mk (twoDigitChars s.row.point))
    ∧ (∀ row ∈ samplePair.1, ∃ k : Int, 0 ≤ k ∧ k ≤ 99
        ∧ row.point_uid = "G" ++ "_P" ++ String.mk (twoDigitChars k))
    ∧ (samplePair.2.map PtSumRow.point_uid).Pairwise (· ≠ ·) :=
  point_uid_format_and_unique sampleDp sampleDpt sampleDpa sampleDbl sampleDps "G"
    samplePair (by decide) (by decide) (by decide)

/-- C3: a (player, point) pair that appears exactly once in the expanded
roster yields exactly one fact-table row carrying that player name and
that point's uid — no duplicates, no drops — provided the points input
has pairwise distinct point numbers (the pass and block aggregates have
unique keys by construction). -/
theorem roster_round_trip (dp : List PlayerStatsRecord) (dpt : List PointRecord)
    (dpa : List PassEvent) (dbl : List BlockEvent) (dps : List PossessionRecord)
    (gid pl : String) (p : Int) (out : List OutputRow × List PtSumRow)
    (hcount : ((expand_roster_from_player_stats dp).filter
        fun re => decide (re.player = pl ∧ re.point = p)).length = 1)
    (hpts : (dpt.map PointRecord.point).Pairwise (· ≠ ·))
    (hb : build_per_player_per_point dp dpt dpa dbl dps gid = some out) :
    (out.1.filter fun row =>
        decide (row.player = pl ∧ row.point_uid = point_uid gid p)).length = 1 := by
  have hL1 : ((build_point_context dpt dps).filter
      fun c => decide (c.point = p)).length = 1 := by
    have hpos : 0 < ((expand_roster_from_player_stats dp).filter
        fun re => decide (re.player = pl ∧ re.point = p)).length := by
      rw [hcount]
      exact Nat.one_pos
    obtain ⟨re, hrefil⟩ := List.exists_mem_of_length_pos hpos
    have hre : re ∈ expand_roster_from_player_stats dp := List.mem_of_mem_filter hrefil
    have hq : re.player = pl ∧ re.point = p :=
      of_decide_eq_true (List.mem_filter.mp hrefil).2
    have hne := build_success_matches hb hre
    have hne2 : (build_point_context dpt dps).filter
        (fun c => decide (c.point = p)) ≠ [] := by
      rw [← hq.2]
      exact hne
    have hge := List.length_pos.mpr hne2
    have hle : ((build_point_context dpt dps).filter
        fun c => decide (c.point = p)).length ≤ 1 := by
      rw [build_point_context, List.filter_map, List.length_map]
      exact pairwise_point_filter_le_one hpts p
    omega
  rw [build_rows_eq hb, ← List.countP_eq_length_filter, List.countP_flatMap]
  have hent : ∀ re ∈ expand_roster_from_player_stats dp,
      ((List.countP fun row => decide (row.player = pl ∧ row.point_uid = point_uid gid p))
          ∘ fun re => (ctxMatches (build_point_context dpt dps) re).map
            (mkOutputRow gid dpa dbl re)) re
        = if decide (re.player = pl ∧ re.point = p)
            then ((build_point_context dpt dps).filter fun c => decide (c.point = p)).length
            else 0 := by
    intro re _
    show List.countP _ ((ctxMatches (build_point_context dpt dps) re).map
      (mkOutputRow gid dpa dbl re)) = _
    rw [List.countP_map]
    by_cases hq : re.player = pl ∧ re.point = p
    · rw [if_pos (decide_eq_true hq)]
      have hall : ∀ c ∈ ctxMatches (build_point_context dpt dps) re,
          ((fun row => decide (row.player = pl ∧ row.point_uid = point_uid gid p))
            ∘ mkOutputRow gid dpa dbl re) c = true := by
        intro c _
        exact decide_eq_true
          ⟨by rw [mkOutputRow_player, hq.1], by rw [mkOutputRow_uid, hq.2]⟩
      rw [List.countP_eq_length.mpr hall]
      show (ctxMatches (build_point_context dpt dps) re).length = _
      rw [ctxMatches, hq.2]
    · rw [if_neg (by simpa using hq)]
      refine List.countP_eq_zero.mpr ?_
      intro c _
      intro hcontra
      have hpair := of_decide_eq_true hcontra
      have h1 := hpair.1
      rw [mkOutputRow_player] at h1
      have h2 := hpair.2
      rw [mkOutputRow_uid] at h2
      exact hq ⟨h1, point_uid_inj h2⟩
  rw [List.map_congr_left hent,
    sum_map_ite (expand_roster_from_player_stats dp)
      (fun re => decide (re.player = pl ∧ re.point = p))
      (((build_point_context dpt dps).filter fun c => decide (c.point = p)).length),
    List.countP_eq_length_filter, hcount, hL1]

theorem roster_round_trip_witness :
    (samplePair.1.filter fun row =>
        decide (row.player = "A" ∧ row.point_uid = point_uid "G" 3)).length = 1 :=
  roster_round_trip sampleDp sampleDpt sampleDpa sampleDbl sampleDps "G" "A" 3
    samplePair (by decide) (by decide) (by decide)

end Statto
